import Mathlib

/-!
Verification of the session/process/connection orchestration layer of the
anthaathi/agent backend, shallowly embedded in Lean 4.

The embedding follows the TypeScript sources:
* utils/path-encode.ts        (path/identity codec)
* routes/terminal.ts          (terminal scrollback buffer, resize handling)
* core/state.ts               (shared registry: sessions, processes,
                               connections, execution locks)
* managers/ProcessManager.ts  (spawnProcess, sendCommand prompt case)
* services/WebSocketService.ts(ensureProcessExists, handleConnection,
                               handleDisconnect, sendMessage, flush)
* routes/websocket.ts         (findSession, session websocket route)

JavaScript Maps are modelled as association lists with insertion order,
Sets as duplicate-free lists, strings as Lean Strings, JSON numbers as
rationals, and object identity of freshly created engine instances as a
natural-number allocation counter.
-/

/-! ## Path/identity codec (utils/path-encode.ts) -/

/-- One path-separator character, as matched by the character class
in the regex of encodePathForDirectory. -/
def isPathSep (c : Char) : Bool :=
  c == '/' || c == '\\'

/-- Model of cwd.replace of the anchored pattern (one leading separator
character) with the empty string: it removes at most one leading
separator. -/
def dropLeadingSep : List Char → List Char
  | [] => []
  | c :: rest => if isPathSep c then rest else c :: rest

/-- Model of the global replacement of every separator or colon with a
dash in encodePathForDirectory. -/
def encodeSepChar (c : Char) : Char :=
  if c == '/' || c == '\\' || c == ':' then '-' else c

/-- encodePathForDirectory from utils/path-encode.ts: strip one leading
separator, replace every separator and colon by a dash, and wrap the
result in double-dash sentinels. -/
def encodePathForDirectory (cwd : String) : String :=
  String.mk (['-', '-'] ++ (dropLeadingSep cwd.data).map encodeSepChar ++ ['-', '-'])

/-- Model of the replacement of a leading double dash with the empty
string in decodePathFromDirectory. -/
def dropLeadingDashes : List Char → List Char
  | '-' :: '-' :: rest => rest
  | l => l

/-- Model of the replacement of a trailing double dash with the empty
string in decodePathFromDirectory. -/
def dropTrailingDashes (l : List Char) : List Char :=
  (dropLeadingDashes l.reverse).reverse

/-- The global replacement of every dash by a slash in
decodePathFromDirectory. -/
def decodeDashChar (c : Char) : Char :=
  if c == '-' then '/' else c

/-- decodePathFromDirectory from utils/path-encode.ts: strip the sentinel
double dashes and turn every dash back into a slash. -/
def decodePathFromDirectory (encoded : String) : String :=
  String.mk ((dropTrailingDashes (dropLeadingDashes encoded.data)).map decodeDashChar)

/-! ## Terminal scrollback buffer (routes/terminal.ts) -/

/-- The scrollback byte budget of a terminal instance. -/
def MAX_HISTORY_BYTES : ℕ := 512 * 1024

/-- The state of a terminal instance relevant to scrollback: the chunk
list and the cached byte count, mirroring the history and historyBytes
fields of TerminalInstance. -/
structure TerminalHistory where
  history : List String
  historyBytes : ℕ
  deriving Repr, DecidableEq

/-- Total utf8 byte size of a chunk list; the quantity historyBytes
caches. -/
def totalBytes (l : List String) : ℕ :=
  (l.map String.utf8ByteSize).sum

/-- The eviction loop of appendHistory: while the byte count exceeds the
budget and chunks remain, shift the oldest chunk and subtract its size. -/
def evictLoop : List String → ℕ → List String × ℕ
  | [], bytes => ([], bytes)
  | c :: rest, bytes =>
    if MAX_HISTORY_BYTES < bytes then evictLoop rest (bytes - c.utf8ByteSize)
    else (c :: rest, bytes)

/-- appendHistory from routes/terminal.ts: ignore empty data, push the
chunk, account its bytes, then evict whole oldest chunks while over
budget. -/
def appendHistory (inst : TerminalHistory) (data : String) : TerminalHistory :=
  if data.isEmpty then inst
  else
    let r := evictLoop (inst.history ++ [data]) (inst.historyBytes + data.utf8ByteSize)
    { history := r.1, historyBytes := r.2 }

/-! ## Terminal resize handling (routes/terminal.ts, resize case) -/

/-- Observable actions of the terminal message handler. -/
inductive TerminalEffect where
  | ptyResize (cols rows : ℤ)
  | logResizeFailed (cols rows : ℤ)
  | ptyWrite (data : String)
  | disposeInstance
  | closeSocket
  | sendPong
  deriving Repr, DecidableEq

/-- The resize branch of the terminal websocket message handler: when
cols and rows are both numbers (JSON numbers modelled as rationals),
floor and clamp them and call resize on the pty inside a try/catch whose
catch only logs; a non-numeric field means the branch does nothing. -/
def handleResizeMessage (cols rows : Option ℚ) (resizeOk : Bool) : List TerminalEffect :=
  match cols, rows with
  | some c, some r =>
    let cols2 : ℤ := max 20 (min 400 ⌊c⌋)
    let rows2 : ℤ := max 5 (min 200 ⌊r⌋)
    if resizeOk then [TerminalEffect.ptyResize cols2 rows2]
    else [TerminalEffect.logResizeFailed cols2 rows2]
  | _, _ => []

/-! ## Data model (core/types.ts, managers/types.ts) -/

/-- Project record from core/types.ts. -/
structure Project where
  id : String
  name : String
  path : String
  createdAt : ℕ
  updatedAt : ℕ
  deriving Repr, DecidableEq

/-- Session lifecycle status from core/types.ts. -/
inductive SessionStatus where
  | idle
  | streaming
  | error
  deriving Repr, DecidableEq

/-- Session record from core/types.ts; sessionPath (the encoded path) is
the primary identifier. -/
structure Session where
  sessionPath : String
  projectId : String
  name : String
  status : SessionStatus
  createdAt : ℕ
  lastActivity : ℕ
  deriving Repr, DecidableEq

/-- A pending extension-UI request from core/types.ts: its resolution
callbacks are external, so the model keeps the method and the timeout
timer handle. -/
structure PendingExtensionUI where
  method : String
  timerId : ℕ
  deriving Repr, DecidableEq

/-- PiProcess from managers/types.ts. The AgentSession object returned by
createAgentSession is external; its identity is modelled by the
allocation counter value engineInstance, so two distinct constructions
yield different handles. -/
structure PiProcess where
  sessionPath : String
  engineInstance : ℕ
  pendingExtensionUIs : List (String × PendingExtensionUI)
  isReady : Bool
  deriving Repr, DecidableEq

/-- Server-to-client frames (ServerMessage in core/types.ts), modelled
structurally instead of as JSON strings; serialisation is injective on
this type. -/
inductive ServerMsg where
  | connected
  | errorEvent (message : String)
  | extensionUIRequest (id method : String)
  | disconnected (message : String)
  deriving Repr, DecidableEq

/-- WebSocketConnection from managers/types.ts; the underlying ws socket
is modelled by its identity socketId and its readyState (1 = OPEN). -/
structure WebSocketConnection where
  sessionPath : String
  socketId : ℕ
  readyState : ℕ
  isAlive : Bool
  messageQueue : List ServerMsg
  isPaused : Bool
  deriving Repr, DecidableEq

/-! ## JavaScript Map and Set operations

A Map is an insertion-ordered association list with unique keys; get,
set and delete below reproduce Map.get, Map.set and Map.delete
observationally. A Set is a duplicate-free list. -/

/-- Map.get: the value of the first (only) entry with the key. -/
def mapGet {α : Type} (m : List (String × α)) (k : String) : Option α :=
  match m with
  | [] => none
  | p :: rest => if p.1 == k then some p.2 else mapGet rest k

/-- Map.set: replace the entry in place when the key is present (keys
are unique, so at most the first matches), append otherwise. -/
def mapSet {α : Type} (m : List (String × α)) (k : String) (v : α) : List (String × α) :=
  match m with
  | [] => [(k, v)]
  | p :: rest => if p.1 == k then (k, v) :: rest else p :: mapSet rest k v

/-- Map.delete: remove the entry with the key. -/
def mapDelete {α : Type} (m : List (String × α)) (k : String) : List (String × α) :=
  m.filter (fun p => p.1 != k)

/-- Keys of an association list are pairwise distinct; every JavaScript
Map satisfies this. -/
def keysNodup {α : Type} (m : List (String × α)) : Prop :=
  (m.map Prod.fst).Nodup

/-- Stable insertion into a list sorted descending by the key, used to
model Array.prototype.sort with a descending numeric comparator. -/
def insertDescBy {α : Type} (key : α → ℕ) (x : α) : List α → List α
  | [] => [x]
  | y :: ys => if key y < key x then x :: y :: ys else y :: insertDescBy key x ys

/-- Sort a list descending by a numeric key (model of the sorts in
getAllProjects and getSessionsByProject). -/
def sortDescBy {α : Type} (key : α → ℕ) (l : List α) : List α :=
  l.foldr (insertDescBy key) []

/-! ## Shared registry (core/state.ts, class State) -/

/-- The five maps of the State singleton in core/state.ts, plus the
allocation counter nextEngine that models object identity of engine
instances created by spawnProcess. -/
structure AppState where
  projects : List (String × Project)
  sessions : List (String × Session)
  processes : List (String × PiProcess)
  connections : List (String × List WebSocketConnection)
  executingSessions : List String
  nextEngine : ℕ
  deriving Repr, DecidableEq

def AppState.getProject (st : AppState) (id : String) : Option Project :=
  mapGet st.projects id

def AppState.getAllProjects (st : AppState) : List Project :=
  sortDescBy Project.updatedAt (st.projects.map Prod.snd)

def AppState.setProject (st : AppState) (project : Project) : AppState :=
  { st with projects := mapSet st.projects project.id project }

def AppState.getSession (st : AppState) (sessionPath : String) : Option Session :=
  mapGet st.sessions sessionPath

def AppState.getSessionsByProject (st : AppState) (projectId : String) : List Session :=
  sortDescBy Session.lastActivity
    ((st.sessions.map Prod.snd).filter (fun s => s.projectId == projectId))

def AppState.setSession (st : AppState) (session : Session) : AppState :=
  { st with sessions := mapSet st.sessions session.sessionPath session }

def AppState.deleteSession (st : AppState) (sessionPath : String) : AppState :=
  { st with sessions := mapDelete st.sessions sessionPath }

def AppState.getProcess (st : AppState) (sessionPath : String) : Option PiProcess :=
  mapGet st.processes sessionPath

def AppState.setProcess (st : AppState) (sessionPath : String) (piProcess : PiProcess) : AppState :=
  { st with processes := mapSet st.processes sessionPath piProcess }

def AppState.deleteProcess (st : AppState) (sessionPath : String) : AppState :=
  { st with processes := mapDelete st.processes sessionPath }

/-- getConnections returns the registered set or a fresh empty set. -/
def AppState.getConnections (st : AppState) (sessionPath : String) : List WebSocketConnection :=
  (mapGet st.connections sessionPath).getD []

def AppState.addConnection (st : AppState) (sessionPath : String)
    (connection : WebSocketConnection) : AppState :=
  match mapGet st.connections sessionPath with
  | none => { st with connections := mapSet st.connections sessionPath [connection] }
  | some set =>
    let updated := if set.contains connection then set else set ++ [connection]
    { st with connections := mapSet st.connections sessionPath updated }

/-- removeConnection deletes the connection from the set and drops the
map entry when the set becomes empty; returns whether it was present. -/
def AppState.removeConnection (st : AppState) (sessionPath : String)
    (connection : WebSocketConnection) : AppState × Bool :=
  match mapGet st.connections sessionPath with
  | none => (st, false)
  | some set =>
    let remaining := set.filter (fun c => c ≠ connection)
    let present := set.contains connection
    if remaining.isEmpty then
      ({ st with connections := mapDelete st.connections sessionPath }, present)
    else
      ({ st with connections := mapSet st.connections sessionPath remaining }, present)

def AppState.isExecuting (st : AppState) (sessionPath : String) : Bool :=
  st.executingSessions.contains sessionPath

/-- acquireExecutionLock: fail without change when held, otherwise record
the session as executing. -/
def AppState.acquireExecutionLock (st : AppState) (sessionPath : String) : AppState × Bool :=
  if st.executingSessions.contains sessionPath then (st, false)
  else ({ st with executingSessions := st.executingSessions ++ [sessionPath] }, true)

/-- releaseExecutionLock: Set.delete on executingSessions, returning
whether the lock was held. -/
def AppState.releaseExecutionLock (st : AppState) (sessionPath : String) : AppState × Bool :=
  ({ st with executingSessions := st.executingSessions.filter (fun x => x ≠ sessionPath) },
    st.executingSessions.contains sessionPath)

/-- cleanupSession removes the session record, the process handle, the
connection set and the execution-lock entry for the key. -/
def AppState.cleanupSession (st : AppState) (sessionPath : String) : AppState :=
  { st with
    sessions := mapDelete st.sessions sessionPath
    processes := mapDelete st.processes sessionPath
    connections := mapDelete st.connections sessionPath
    executingSessions := st.executingSessions.filter (fun x => x ≠ sessionPath) }

/-! ## Observable actions of the orchestration layer -/

/-- Externally visible actions emitted while the orchestration code
runs: socket sends, engine calls, timers and lock bookkeeping. -/
inductive Effect where
  | socketSend (socketId : ℕ) (msg : ServerMsg)
  | socketSendFailed (socketId : ℕ)
  | droppedOldest (socketId : ℕ)
  | enginePrompt (engineInstance : ℕ)
  | releaseLock (sessionPath : String)
  | clearTimeout (timerId : ℕ)
  | rejectPending (id reason : String)
  | connectionRegistered (socketId : ℕ)
  | processEnsured (sessionPath : String)
  deriving Repr, DecidableEq

/-! ## Process orchestrator (managers/ProcessManager.ts) -/

/-- ProcessSpawnOptions from managers/types.ts. -/
structure ProcessSpawnOptions where
  sessionPath : String
  projectPath : String
  sessionDir : String
  deriving Repr, DecidableEq

/-- spawnProcess from ProcessManager.ts: construct a fresh engine
instance via createAgentSession (modelled by the allocation counter;
spawnOk = false models a construction failure, which registers nothing),
build the PiProcess record with an empty pending map, subscribe, set
isReady and register the handle under the session key. It performs no
existence check for the key. -/
def ProcessManager.spawnProcess (st : AppState) (options : ProcessSpawnOptions)
    (spawnOk : Bool) : Option (AppState × PiProcess) :=
  if spawnOk then
    let piProcess : PiProcess :=
      { sessionPath := options.sessionPath
        engineInstance := st.nextEngine
        pendingExtensionUIs := []
        isReady := true }
    some (AppState.setProcess { st with nextEngine := st.nextEngine + 1 }
      options.sessionPath piProcess, piProcess)
  else none

/-- broadcastError from ProcessManager.ts: send a synthetic error event
directly to every open connection of the session (no queueing). -/
def ProcessManager.broadcastError (st : AppState) (sessionPath message : String) : List Effect :=
  (AppState.getConnections st sessionPath).filterMap
    (fun c =>
      if c.readyState == 1 then some (Effect.socketSend c.socketId (ServerMsg.errorEvent message))
      else none)

/-- The busy rejection message of the prompt case of sendCommand. -/
def busyMessage : String :=
  "Agent is busy. Another prompt is currently being processed."

/-- The prompt case of ProcessManager.sendCommand: attempt to acquire the
execution lock; when it is already held, broadcast the busy error and
return false without touching any state. After the lock is acquired the
handler reads command.message through an unchecked string cast; a
non-string message (modelled by none) makes the promptMessage.slice call
in the log statement throw synchronously into the outer catch of
sendCommand, which logs and returns false — the engine is never invoked
and, because releaseExecutionLock lives only in the finally of the
sendUserMessage promise chain, no release is ever scheduled. With a
string message the content is submitted to the engine asynchronously
and the dispatch returns true. -/
def ProcessManager.sendPrompt (st : AppState) (piProcess : PiProcess)
    (message : Option String) : AppState × Bool × List Effect :=
  let acq := AppState.acquireExecutionLock st piProcess.sessionPath
  if acq.2 then
    match message with
    | some _ => (acq.1, true, [Effect.enginePrompt piProcess.engineInstance])
    | none => (acq.1, false, [])
  else (st, false, ProcessManager.broadcastError st piProcess.sessionPath busyMessage)

/-- Settlement of the sendUserMessage promise for a prompt accepted for
sessionPath: the then-branch only logs, the catch-branch broadcasts the
error, and the finally-branch releases the execution lock in both
cases. -/
def ProcessManager.promptSettle (st : AppState) (sessionPath : String)
    (outcome : Except String Unit) : AppState × List Effect :=
  match outcome with
  | Except.ok _ =>
    ((AppState.releaseExecutionLock st sessionPath).1, [Effect.releaseLock sessionPath])
  | Except.error msg =>
    ((AppState.releaseExecutionLock st sessionPath).1,
      ProcessManager.broadcastError st sessionPath msg ++ [Effect.releaseLock sessionPath])

/-- Clearing and rejecting every pending extension-UI request, as done by
handleDisconnect and killProcess: cancel each timeout timer and call
each reject callback with the reason. -/
def rejectAllPending (pending : List (String × PendingExtensionUI)) (reason : String) :
    List Effect :=
  pending.foldr
    (fun p acc => Effect.clearTimeout p.2.timerId :: Effect.rejectPending p.1 reason :: acc) []

/-! ## Connection gateway (services/WebSocketService.ts) -/

/-- Outbound queue capacity per connection. -/
def MAX_BUFFERED_MESSAGES : ℕ := 100

/-- The enqueue step of sendMessage for a paused connection: push when
under capacity, otherwise shift the oldest queued message and push. -/
def enqueueOutbound (queue : List ServerMsg) (msg : ServerMsg) : List ServerMsg :=
  if queue.length < MAX_BUFFERED_MESSAGES then queue ++ [msg]
  else queue.tail ++ [msg]

/-- The per-connection body of sendMessage: skip non-open sockets, queue
with oldest-drop while paused (anySuccess is set only on the
under-capacity push, not on the drop-oldest branch), otherwise try the
send and mark the connection paused when the transport throws (sendOk
gives the transport outcome per socket). -/
def sendToConnection (c : WebSocketConnection) (msg : ServerMsg) (sendOk : ℕ → Bool) :
    WebSocketConnection × List Effect × Bool :=
  if c.readyState ≠ 1 then (c, [], false)
  else if c.isPaused then
    ({ c with messageQueue := enqueueOutbound c.messageQueue msg },
      if c.messageQueue.length < MAX_BUFFERED_MESSAGES then []
      else [Effect.droppedOldest c.socketId],
      decide (c.messageQueue.length < MAX_BUFFERED_MESSAGES))
  else if sendOk c.socketId then (c, [Effect.socketSend c.socketId msg], true)
  else ({ c with isPaused := true }, [Effect.socketSendFailed c.socketId], false)

/-- The broadcast loop of sendMessage over the connection set. -/
def sendToAll (conns : List WebSocketConnection) (msg : ServerMsg) (sendOk : ℕ → Bool) :
    List WebSocketConnection × List Effect × Bool :=
  match conns with
  | [] => ([], [], false)
  | c :: rest =>
    let r1 := sendToConnection c msg sendOk
    let r2 := sendToAll rest msg sendOk
    (r1.1 :: r2.1, r1.2.1 ++ r2.2.1, r1.2.2 || r2.2.2)

/-- sendMessage from WebSocketService.ts: return false when the session
has no connections, otherwise run the per-connection send and report
whether any connection accepted or queued the message. -/
def WebSocketService.sendMessage (st : AppState) (sessionPath : String) (msg : ServerMsg)
    (sendOk : ℕ → Bool) : AppState × List Effect × Bool :=
  let conns := AppState.getConnections st sessionPath
  if conns.isEmpty then (st, [], false)
  else
    let r := sendToAll conns msg sendOk
    ({ st with connections := mapSet st.connections sessionPath r.1 }, r.2.1, r.2.2)

/-- The drain loop of flushMessageQueue: shift and send queued messages
in order until the queue empties or a send throws; on a throw the unsent
message is put back at the front and the connection re-pauses. The i-th
send attempt succeeds when sendOk i is true. -/
def flushLoop (socketId : ℕ) (queue : List ServerMsg) (sendOk : ℕ → Bool) (i : ℕ) :
    List ServerMsg × Bool × List Effect :=
  match queue with
  | [] => ([], false, [])
  | m :: rest =>
    if sendOk i then
      let r := flushLoop socketId rest sendOk (i + 1)
      (r.1, r.2.1, Effect.socketSend socketId m :: r.2.2)
    else (m :: rest, true, [Effect.socketSendFailed socketId])

/-- flushMessageQueue from WebSocketService.ts, entered from the drain
handler after isPaused has been reset to false. -/
def WebSocketService.flushMessageQueue (c : WebSocketConnection) (sendOk : ℕ → Bool) :
    WebSocketConnection × List Effect :=
  if c.readyState ≠ 1 then (c, [])
  else
    let r := flushLoop c.socketId c.messageQueue sendOk 0
    ({ c with messageQueue := r.1, isPaused := r.2.1 }, r.2.2)

/-- The messages actually sent in a list of effects, in order. -/
def sentMessages (effs : List Effect) : List ServerMsg :=
  effs.filterMap (fun e =>
    match e with
    | Effect.socketSend _ m => some m
    | _ => none)

/-- resolveSessionPath from utils/path-encode.ts: already-absolute paths
pass through, relative ones are joined under the sessions directory. -/
def resolveSessionPath (sessionsDir relativePath : String) : String :=
  if relativePath.startsWith "/" then relativePath
  else sessionsDir ++ "/" ++ relativePath

/-- The sessionDir computation of ensureProcessExists:
absolutePath.substring(0, absolutePath.lastIndexOf('/')), which is the
text before the last slash, and empty when there is none. -/
def dirnameOf (absolutePath : String) : String :=
  String.intercalate "/" ((absolutePath.splitOn "/").dropLast)

/-- ensureProcessExists from WebSocketService.ts: return at once when a
handle already exists; also return (logging only) when the session or
its project is unknown or when spawnProcess throws, so those failure
paths leave no handle registered but do not propagate. -/
def WebSocketService.ensureProcessExists (sessionsDir : String) (st : AppState)
    (sessionPath : String) (spawnOk : Bool) : AppState :=
  match AppState.getProcess st sessionPath with
  | some _ => st
  | none =>
    match AppState.getSession st sessionPath with
    | none => st
    | some session =>
      match AppState.getProject st session.projectId with
      | none => st
      | some project =>
        match ProcessManager.spawnProcess st
          { sessionPath := sessionPath
            projectPath := project.path
            sessionDir := dirnameOf (resolveSessionPath sessionsDir sessionPath) } spawnOk with
        | some r => r.1
        | none => st

/-- handleConnection from WebSocketService.ts: build the connection
record, register it, await ensureProcessExists, and only then send the
connected acknowledgment through sendMessage. -/
def WebSocketService.handleConnection (sessionsDir : String) (st : AppState)
    (sessionPath : String) (socketId : ℕ) (spawnOk : Bool) (sendOk : ℕ → Bool) :
    AppState × List Effect :=
  let connection : WebSocketConnection :=
    { sessionPath := sessionPath
      socketId := socketId
      readyState := 1
      isAlive := true
      messageQueue := []
      isPaused := false }
  let st1 := AppState.addConnection st sessionPath connection
  let st2 := WebSocketService.ensureProcessExists sessionsDir st1 sessionPath spawnOk
  let r := WebSocketService.sendMessage st2 sessionPath ServerMsg.connected sendOk
  (r.1, Effect.connectionRegistered socketId :: Effect.processEnsured sessionPath :: r.2.1)

/-- handleDisconnect from WebSocketService.ts: remove the connection
whose socket matches; when it was the last connection of the session,
reject every pending extension-UI request of the session's process with
a disconnected error, cancel its timer, and clear the pending map; the
process handle itself stays registered. -/
def WebSocketService.handleDisconnect (st : AppState) (sessionPath : String) (socketId : ℕ) :
    AppState × List Effect :=
  let conns := AppState.getConnections st sessionPath
  let st1 :=
    match conns.find? (fun c => c.socketId == socketId) with
    | some c => (AppState.removeConnection st sessionPath c).1
    | none => st
  if (AppState.getConnections st1 sessionPath).length == 0 then
    match AppState.getProcess st1 sessionPath with
    | some piProcess =>
      (AppState.setProcess st1 sessionPath { piProcess with pendingExtensionUIs := [] },
        rejectAllPending piProcess.pendingExtensionUIs "Client disconnected")
    | none => (st1, [])
  else (st1, [])

/-! ## Session resolution (routes/websocket.ts, managers/ProjectManager.ts) -/

/-- A session discovered by the on-disk transcript scan (pi session data
held by ProjectManager.scannedProjects, keyed by project path). -/
structure ScannedSession where
  relativePath : String
  firstMessage : Option String
  createdAt : ℕ
  lastActivity : ℕ
  deriving Repr, DecidableEq

/-- The Session record loadProjectSessions builds for a scanned session;
the date-based fallback display name is modelled by a fixed string. -/
def scannedToSession (projectId : String) (ps : ScannedSession) : Session :=
  { sessionPath := ps.relativePath
    projectId := projectId
    name := ps.firstMessage.getD "Session"
    status := SessionStatus.idle
    createdAt := ps.createdAt
    lastActivity := ps.lastActivity }

/-- loadProjectSessions from ProjectManager.ts: throw (modelled as no
change, since every caller relevant here catches) when the project is
unknown, skip when the project already has sessions in state, otherwise
register a Session for every scanned on-disk transcript of the
project. -/
def ProjectManager.loadProjectSessions (scanned : String → List ScannedSession)
    (st : AppState) (projectId : String) : AppState :=
  match AppState.getProject st projectId with
  | none => st
  | some project =>
    if (AppState.getSessionsByProject st projectId).length ≠ 0 then st
    else (scanned project.path).foldl
      (fun s ps => AppState.setSession s (scannedToSession projectId ps)) st

/-- Step 2 of findSession in routes/websocket.ts: linear scan of all
known projects' session lists for a key equality match. -/
def scanProjectsForSession (st : AppState) (relativePath : String) :
    Option (String × Session) :=
  (AppState.getAllProjects st).findSome? (fun project =>
    ((AppState.getSessionsByProject st project.id).find?
        (fun s => s.sessionPath == relativePath)).map
      (fun s => (s.sessionPath, s)))

/-- Step 3 of findSession: for each project in turn, lazily load its
on-disk sessions and retry the scan of that project once; load errors
are caught and the search continues. -/
def loadAndScanLoop (scanned : String → List ScannedSession) (relativePath : String) :
    AppState → List Project → AppState × Option (String × Session)
  | st, [] => (st, none)
  | st, project :: rest =>
    let st1 := ProjectManager.loadProjectSessions scanned st project.id
    match (AppState.getSessionsByProject st1 project.id).find?
        (fun s => s.sessionPath == relativePath) with
    | some s => (st1, some (s.sessionPath, s))
    | none => loadAndScanLoop scanned relativePath st1 rest

/-- findSession from routes/websocket.ts: direct registry lookup, then
the linear scan, then the per-project lazy load with one retry of the
scan, in that order, first match winning. -/
def findSession (scanned : String → List ScannedSession) (st : AppState)
    (relativePath : String) : AppState × Option (String × Session) :=
  match AppState.getSession st relativePath with
  | some session => (st, some (relativePath, session))
  | none =>
    match scanProjectsForSession st relativePath with
    | some r => (st, some r)
    | none => loadAndScanLoop scanned relativePath st (AppState.getAllProjects st)

/-- Outcome of the session websocket route: either a close with a code
and reason, or an accepted connection for the resolved key. -/
inductive RouteOutcome where
  | closed (code : ℕ) (reason : String)
  | accepted (sessionPath : String)
  deriving Repr, DecidableEq

/-- The session websocket route handler after URL decoding: resolve via
findSession and close with code 1008 when no step matched; no
placeholder session is created. -/
def websocketSessionRoute (scanned : String → List ScannedSession) (st : AppState)
    (relativePath : String) : AppState × RouteOutcome :=
  match findSession scanned st relativePath with
  | (st1, none) => (st1, RouteOutcome.closed 1008 "Session not found")
  | (st1, some r) => (st1, RouteOutcome.accepted r.1)

/-- Every registered process handle is ready; spawnProcess establishes
this before registering and nothing ever clears it. -/
def allProcessesReady (st : AppState) : Prop :=
  ∀ k p, AppState.getProcess st k = some p → p.isReady = true

/-! ## Concrete instances used to evaluate the model -/

/-- A registered process handle for session key k. -/
def c1Process : PiProcess :=
  { sessionPath := "k", engineInstance := 0, pendingExtensionUIs := [], isReady := true }

/-- Spawn options targeting the key k that already has a handle. -/
def c1Options : ProcessSpawnOptions :=
  { sessionPath := "k", projectPath := "/home/u/app", sessionDir := "/s/--home-u-app--" }

/-- A registry state in which key k already has a live handle. -/
def c1State : AppState :=
  { projects := [], sessions := [], processes := [("k", c1Process)]
    connections := [], executingSessions := [], nextEngine := 1 }

/-- A process handle for the prompt-lock scenario. -/
def c2Process : PiProcess :=
  { sessionPath := "k", engineInstance := 0, pendingExtensionUIs := [], isReady := true }

/-- A registry state whose session k does not hold the execution lock. -/
def c2FreeState : AppState :=
  { projects := [], sessions := [], processes := [("k", c2Process)]
    connections := [], executingSessions := [], nextEngine := 1 }

/-- A registry state whose session k currently holds the execution lock. -/
def c2BusyState : AppState :=
  { projects := [], sessions := [], processes := [("k", c2Process)]
    connections := [], executingSessions := ["k"], nextEngine := 1 }

/-- The project backing the connection scenario. -/
def c4Project : Project :=
  { id := "p1", name := "app", path := "/home/u/app", createdAt := 0, updatedAt := 0 }

/-- A resolvable session whose project is known. -/
def c4Session : Session :=
  { sessionPath := "s1", projectId := "p1", name := "s", status := SessionStatus.idle
    createdAt := 0, lastActivity := 0 }

/-- A registry state with the session and project present but no process
handle yet. -/
def c4State : AppState :=
  { projects := [("p1", c4Project)], sessions := [("s1", c4Session)], processes := []
    connections := [], executingSessions := [], nextEngine := 0 }

/-- A paused open connection with a single queued message. -/
def c5Conn : WebSocketConnection :=
  { sessionPath := "k", socketId := 3, readyState := 1, isAlive := true
    messageQueue := [ServerMsg.disconnected "m0"], isPaused := true }

/-- An empty registry, in which no session identifier resolves. -/
def c7State : AppState :=
  { projects := [], sessions := [], processes := [], connections := []
    executingSessions := [], nextEngine := 0 }

/-- The sole connection of the disconnect scenario. -/
def c8Conn : WebSocketConnection :=
  { sessionPath := "k", socketId := 3, readyState := 1, isAlive := true
    messageQueue := [], isPaused := false }

/-- A process handle with two pending extension-UI requests. -/
def c8Process : PiProcess :=
  { sessionPath := "k", engineInstance := 0
    pendingExtensionUIs := [("u1", { method := "confirm", timerId := 11 }),
      ("u2", { method := "input", timerId := 12 })]
    isReady := true }

/-- A registry state where session k has one viewer and two pending
extension-UI requests. -/
def c8State : AppState :=
  { projects := [], sessions := [], processes := [("k", c8Process)]
    connections := [("k", [c8Conn])], executingSessions := [], nextEngine := 1 }

/-- The session record of the cleanup scenario. -/
def c9Session : Session :=
  { sessionPath := "k", projectId := "p1", name := "s"
    status := SessionStatus.streaming, createdAt := 0, lastActivity := 0 }

/-- A registry state for the cleanup scenario: session k exists, has a
process, one viewer and a held execution lock. -/
def c9State : AppState :=
  { projects := [], sessions := [("k", c9Session)]
    processes := [("k", c8Process)], connections := [("k", [c8Conn])]
    executingSessions := ["k"], nextEngine := 1 }

/-! ### Codec lemmas -/

theorem dropLeadingDashes_cons_cons (rest : List Char) :
    dropLeadingDashes ('-' :: '-' :: rest) = rest := rfl

theorem dropTrailingDashes_append_dashes (l : List Char) :
    dropTrailingDashes (l ++ ['-', '-']) = l := by
  unfold dropTrailingDashes
  rw [List.reverse_append]
  simp [dropLeadingDashes_cons_cons]

theorem dropLeadingSep_sublist (l : List Char) : (dropLeadingSep l).Sublist l := by
  cases l with
  | nil => simp [dropLeadingSep]
  | cons c rest =>
    by_cases h : isPathSep c = true <;>
      simp [dropLeadingSep, h, List.sublist_cons_self]

theorem decode_encode_char (c : Char) (h1 : c ≠ '-') (h2 : c ≠ ':') (h3 : c ≠ '\\') :
    decodeDashChar (encodeSepChar c) = c := by
  by_cases hc : c = '/'
  · subst hc; rfl
  · have e1 : (c == '/') = false := by simpa using hc
    have e2 : (c == '\\') = false := by simpa using h3
    have e3 : (c == ':') = false := by simpa using h2
    have e4 : (c == '-') = false := by simpa using h1
    simp [encodeSepChar, decodeDashChar, e1, e2, e3, e4]

theorem decode_encode_data (p : String)
    (h : ∀ c ∈ p.data, c ≠ '-' ∧ c ≠ ':' ∧ c ≠ '\\') :
    (decodePathFromDirectory (encodePathForDirectory p)).data
      = dropLeadingSep p.data := by
  have hdata : (encodePathForDirectory p).data
      = ['-', '-'] ++ (dropLeadingSep p.data).map encodeSepChar ++ ['-', '-'] := rfl
  unfold decodePathFromDirectory
  rw [hdata]
  have h1 : dropLeadingDashes
      (['-', '-'] ++ (dropLeadingSep p.data).map encodeSepChar ++ ['-', '-'])
      = (dropLeadingSep p.data).map encodeSepChar ++ ['-', '-'] := rfl
  rw [h1, dropTrailingDashes_append_dashes, List.map_map]
  have : ∀ c ∈ dropLeadingSep p.data, (decodeDashChar ∘ encodeSepChar) c = c := by
    intro c hc
    have hmem : c ∈ p.data := (dropLeadingSep_sublist p.data).mem hc
    obtain ⟨k1, k2, k3⟩ := h c hmem
    exact decode_encode_char c k1 k2 k3
  rw [List.map_congr_left this]
  simp

/-- C3. The claim as stated fails: the codec strips the leading path
separator, so on absolute paths the round trip is not the identity even
without any reserved character. Concretely decode(encode("/home/u/app"))
is "home/u/app". -/
theorem C3_counterexample :
    decodePathFromDirectory (encodePathForDirectory "/home/u/app") ≠ "/home/u/app" := by
  decide

/-- C3 (amended). For every path p containing none of the reserved
characters dash, colon and backslash, the round trip
decodePathFromDirectory (encodePathForDirectory p) returns p with one
leading path separator removed; in particular the round trip is exactly
the identity on such paths that do not begin with a separator, and an
absolute path decodes to the original minus its leading slash. -/
theorem C3_roundtrip_drops_leading_separator (p : String)
    (h : ∀ c ∈ p.data, c ≠ '-' ∧ c ≠ ':' ∧ c ≠ '\\') :
    decodePathFromDirectory (encodePathForDirectory p) = String.mk (dropLeadingSep p.data) ∧
    (dropLeadingSep p.data = p.data →
      decodePathFromDirectory (encodePathForDirectory p) = p) := by
  have hd := decode_encode_data p h
  constructor
  · apply String.ext
    simpa using hd
  · intro hns
    apply String.ext
    simpa [hns] using hd

/-- Witness for C3: the amended round trip evaluated at the concrete
absolute path used in the spec scenario. -/
theorem C3_roundtrip_witness :
    decodePathFromDirectory (encodePathForDirectory "/home/u/app")
      = String.mk (dropLeadingSep "/home/u/app".data) :=
  (C3_roundtrip_drops_leading_separator "/home/u/app" (by decide)).1

/-! ### Scrollback lemmas -/

theorem evictLoop_spec (l : List String) (b : ℕ) (h : b = totalBytes l) :
    (evictLoop l b).2 = totalBytes (evictLoop l b).1 ∧
    (evictLoop l b).1.IsSuffix l ∧
    (evictLoop l b).2 ≤ MAX_HISTORY_BYTES := by
  induction l generalizing b with
  | nil =>
    refine ⟨by simp [evictLoop, h], List.suffix_refl _, ?_⟩
    simp [evictLoop, h, totalBytes]
  | cons c rest ih =>
    by_cases hgt : MAX_HISTORY_BYTES < b
    · have hb : b - c.utf8ByteSize = totalBytes rest := by
        subst h
        simp [totalBytes]
      have hrec := ih (b - c.utf8ByteSize) hb
      have hev : evictLoop (c :: rest) b = evictLoop rest (b - c.utf8ByteSize) := by
        simp [evictLoop, hgt]
      rw [hev]
      exact ⟨hrec.1, hrec.2.1.trans (List.suffix_cons c rest), hrec.2.2⟩
    · have hev : evictLoop (c :: rest) b = (c :: rest, b) := by
        simp [evictLoop, hgt]
      rw [hev]
      exact ⟨h, List.suffix_refl _, Nat.le_of_not_lt hgt⟩

/-- C6. After any append the scrollback byte count equals the total size
of the retained chunks and never exceeds the 512 KiB budget, and
eviction removes whole oldest chunks only: the retained history is a
suffix of the previous history with the new chunk pushed (empty data
leaves the buffer untouched). -/
theorem C6_scrollback_capped (inst : TerminalHistory) (d : String)
    (hwf : inst.historyBytes = totalBytes inst.history)
    (hcap : inst.historyBytes ≤ MAX_HISTORY_BYTES) :
    (appendHistory inst d).historyBytes = totalBytes (appendHistory inst d).history ∧
    (appendHistory inst d).historyBytes ≤ MAX_HISTORY_BYTES ∧
    (d.isEmpty = true → appendHistory inst d = inst) ∧
    (d.isEmpty = false →
      (appendHistory inst d).history.IsSuffix (inst.history ++ [d])) := by
  by_cases he : d.isEmpty = true
  · refine ⟨?_, ?_, ?_, ?_⟩
    · simpa [appendHistory, he] using hwf
    · simpa [appendHistory, he] using hcap
    · intro _
      simp [appendHistory, he]
    · intro hne
      rw [he] at hne
      cases hne
  · have hne : d.isEmpty = false := by simpa using he
    have hb : inst.historyBytes + d.utf8ByteSize = totalBytes (inst.history ++ [d]) := by
      simp [totalBytes, hwf]
    have hspec := evictLoop_spec (inst.history ++ [d])
      (inst.historyBytes + d.utf8ByteSize) hb
    refine ⟨?_, ?_, ?_, ?_⟩
    · simpa [appendHistory, hne] using hspec.1
    · simpa [appendHistory, hne] using hspec.2.2
    · intro habs
      rw [habs] at hne
      cases hne
    · intro _
      simpa [appendHistory, hne] using hspec.2.1

/-- Witness for C6: appending a concrete chunk to the empty buffer. -/
theorem C6_scrollback_witness :
    (appendHistory ⟨[], 0⟩ "ls\n").historyBytes
        = totalBytes (appendHistory ⟨[], 0⟩ "ls\n").history ∧
    (appendHistory ⟨[], 0⟩ "ls\n").historyBytes ≤ MAX_HISTORY_BYTES := by
  have h := C6_scrollback_capped ⟨[], 0⟩ "ls\n" (by simp [totalBytes]) (by simp)
  exact ⟨h.1, h.2.1⟩

/-! ### Resize lemmas -/

/-- C10. A resize message with numeric cols and rows forwards the floored
and clamped values: the forwarded cols lie in the interval from 20 to
400 and the rows from 5 to 200, and values already in range pass through
unchanged apart from flooring; non-numeric cols or rows are ignored; a
failing pty resize only logs and never closes the socket or disposes the
instance. -/
theorem C10_resize_clamped (cols rows : Option ℚ) (resizeOk : Bool) :
    (∀ c r, cols = some c → rows = some r →
      (resizeOk = true →
        handleResizeMessage cols rows resizeOk
          = [TerminalEffect.ptyResize (max 20 (min 400 ⌊c⌋)) (max 5 (min 200 ⌊r⌋))]) ∧
      (20 : ℤ) ≤ max 20 (min 400 ⌊c⌋) ∧ max 20 (min 400 ⌊c⌋) ≤ 400 ∧
      (5 : ℤ) ≤ max 5 (min 200 ⌊r⌋) ∧ max 5 (min 200 ⌊r⌋) ≤ 200 ∧
      ((20 : ℤ) ≤ ⌊c⌋ → ⌊c⌋ ≤ 400 → max 20 (min 400 ⌊c⌋) = ⌊c⌋) ∧
      (resizeOk = false →
        handleResizeMessage cols rows resizeOk
          = [TerminalEffect.logResizeFailed (max 20 (min 400 ⌊c⌋)) (max 5 (min 200 ⌊r⌋))])) ∧
    (cols = none ∨ rows = none → handleResizeMessage cols rows resizeOk = []) ∧
    TerminalEffect.closeSocket ∉ handleResizeMessage cols rows resizeOk ∧
    TerminalEffect.disposeInstance ∉ handleResizeMessage cols rows resizeOk := by
  refine ⟨?_, ?_, ?_, ?_⟩
  · intro c r hc hr
    subst hc; subst hr
    refine ⟨fun hok => by simp [handleResizeMessage, hok], le_max_left _ _, ?_,
      le_max_left _ _, ?_, ?_, fun hok => by simp [handleResizeMessage, hok]⟩
    · exact max_le (by norm_num) (min_le_left _ _)
    · exact max_le (by norm_num) (min_le_left _ _)
    · intro h1 h2
      rw [min_eq_right h2]
      exact max_eq_right h1
  · rintro (hc | hr)
    · subst hc; rfl
    · subst hr
      cases cols <;> rfl
  · cases cols with
    | none => simp [handleResizeMessage]
    | some c =>
      cases rows with
      | none => simp [handleResizeMessage]
      | some r => cases resizeOk <;> simp [handleResizeMessage]
  · cases cols with
    | none => simp [handleResizeMessage]
    | some c =>
      cases rows with
      | none => simp [handleResizeMessage]
      | some r => cases resizeOk <;> simp [handleResizeMessage]

/-- Witness for C10: a concrete oversized resize request is clamped to
the maximum bounds. -/
theorem C10_resize_witness :
    handleResizeMessage (some 1000) (some (7/2)) true
      = [TerminalEffect.ptyResize 400 5] := by
  have h := (C10_resize_clamped (some 1000) (some (7/2)) true).1 1000 (7/2) rfl rfl
  have := h.1 rfl
  rw [this]
  norm_num

/-! ### Association-map lemmas -/

theorem mapGet_mapSet_self {α : Type} (m : List (String × α)) (k : String) (v : α) :
    mapGet (mapSet m k v) k = some v := by
  induction m with
  | nil => simp [mapGet, mapSet]
  | cons p rest ih =>
    by_cases h : (p.1 == k) = true
    · simp [mapGet, mapSet, h]
    · have h' : (p.1 == k) = false := by simpa using h
      simp [mapGet, mapSet, h', ih]

theorem mapGet_mapSet_ne {α : Type} (m : List (String × α)) (k q : String) (v : α)
    (hq : q ≠ k) : mapGet (mapSet m k v) q = mapGet m q := by
  have hkq : (k == q) = false := by
    rw [beq_eq_false_iff_ne]
    exact fun hh => hq hh.symm
  induction m with
  | nil => simp [mapGet, mapSet, hkq]
  | cons p rest ih =>
    by_cases h : (p.1 == k) = true
    · have hpk : p.1 = k := by simpa using h
      have hpq : (p.1 == q) = false := by rw [hpk]; exact hkq
      simp [mapGet, mapSet, h, hkq, hpq]
    · have h' : (p.1 == k) = false := by simpa using h
      by_cases hpq : (p.1 == q) = true
      · simp [mapGet, mapSet, h', hpq]
      · have hpq' : (p.1 == q) = false := by simpa using hpq
        simp [mapGet, mapSet, h', hpq', ih]

theorem mapGet_mapSet {α : Type} (m : List (String × α)) (k q : String) (v : α) :
    mapGet (mapSet m k v) q = if q = k then some v else mapGet m q := by
  by_cases h : q = k
  · rw [if_pos h, h, mapGet_mapSet_self]
  · rw [if_neg h, mapGet_mapSet_ne m k q v h]

theorem mapGet_mapDelete_self {α : Type} (m : List (String × α)) (k : String) :
    mapGet (mapDelete m k) k = none := by
  induction m with
  | nil => rfl
  | cons p rest ih =>
    unfold mapDelete at ih ⊢
    rw [List.filter_cons]
    by_cases h : (p.1 == k) = true
    · have : (p.1 != k) = false := by simp [bne]; simpa using h
      rw [this]
      simp only [Bool.false_eq_true, if_false]
      exact ih
    · have h' : (p.1 == k) = false := by simpa using h
      have : (p.1 != k) = true := by simp [bne, h']
      rw [this]
      simp only [if_true]
      simpa [mapGet, h'] using ih

theorem keys_mapSet_mem {α : Type} (m : List (String × α)) (k : String) (v : α)
    (a : String) (ha : a ∈ (mapSet m k v).map Prod.fst) :
    a = k ∨ a ∈ m.map Prod.fst := by
  induction m with
  | nil =>
    simp [mapSet] at ha
    exact Or.inl ha
  | cons p rest ih =>
    by_cases h : (p.1 == k) = true
    · have hpk : p.1 = k := by simpa using h
      simp only [mapSet, h, if_true, List.map_cons] at ha
      rcases List.mem_cons.mp ha with h1 | h1
      · exact Or.inl h1
      · exact Or.inr (by rw [List.map_cons]; exact List.mem_cons_of_mem _ h1)
    · have h' : (p.1 == k) = false := by simpa using h
      simp only [mapSet, h', Bool.false_eq_true, if_false, List.map_cons] at ha
      rcases List.mem_cons.mp ha with h1 | h1
      · exact Or.inr (by rw [List.map_cons, h1]; exact List.mem_cons_self _ _)
      · rcases ih h1 with h2 | h2
        · exact Or.inl h2
        · exact Or.inr (by rw [List.map_cons]; exact List.mem_cons_of_mem _ h2)

theorem keysNodup_mapSet {α : Type} (m : List (String × α)) (k : String) (v : α)
    (h : keysNodup m) : keysNodup (mapSet m k v) := by
  induction m with
  | nil => simp [mapSet, keysNodup]
  | cons p rest ih =>
    unfold keysNodup at h ih ⊢
    rw [List.map_cons, List.nodup_cons] at h
    by_cases hp : (p.1 == k) = true
    · have hpk : p.1 = k := by simpa using hp
      simp only [mapSet, hp, if_true, List.map_cons, List.nodup_cons]
      exact ⟨by rw [← hpk]; exact h.1, h.2⟩
    · have hp' : (p.1 == k) = false := by simpa using hp
      simp only [mapSet, hp', Bool.false_eq_true, if_false, List.map_cons, List.nodup_cons]
      refine ⟨?_, ih h.2⟩
      intro hmem
      rcases keys_mapSet_mem rest k v p.1 hmem with h1 | h1
      · rw [h1] at hp'
        simp at hp'
      · exact h.1 h1

theorem mapGet_mem_values {α : Type} (m : List (String × α)) (k : String) (v : α)
    (h : mapGet m k = some v) : v ∈ m.map Prod.snd := by
  induction m with
  | nil => cases h
  | cons p rest ih =>
    by_cases hp : (p.1 == k) = true
    · simp only [mapGet, hp, if_true, Option.some.injEq] at h
      simp [← h]
    · have hp' : (p.1 == k) = false := by simpa using hp
      simp only [mapGet, hp', Bool.false_eq_true, if_false] at h
      rw [List.map_cons]
      exact List.mem_cons_of_mem _ (ih h)

theorem contains_filter_ne_self (l : List String) (k : String) :
    (l.filter (fun x => x ≠ k)).contains k = false := by
  induction l with
  | nil => rfl
  | cons a rest ih =>
    rw [List.filter_cons]
    by_cases ha : a = k
    · have : (decide (a ≠ k)) = false := by simp [ha]
      rw [this]
      simp only [Bool.false_eq_true, if_false]
      exact ih
    · have hd : (decide (a ≠ k)) = true := by simp [ha]
      rw [hd]
      simp only [if_true]
      have hne : (k == a) = false := by
        rw [beq_eq_false_iff_ne]
        exact fun hh => ha hh.symm
      rw [List.contains_cons, hne, ih]
      rfl

theorem contains_append_singleton_self (l : List String) (k : String) :
    (l ++ [k]).contains k = true := by
  induction l with
  | nil => simp [List.contains_cons]
  | cons a rest ih =>
    rw [List.cons_append, List.contains_cons, ih]
    simp

/-! ### Registry cleanup (C9) -/

/-- C9. cleanupSession removes the session record, the process handle,
the connection set and the execution-lock entry, so after cleanup the
key is no longer executing and a recreated session under the same key
immediately acquires a fresh execution lock. -/
theorem C9_cleanup_clears_lock (st : AppState) (k : String) :
    AppState.isExecuting (AppState.cleanupSession st k) k = false ∧
    AppState.getSession (AppState.cleanupSession st k) k = none ∧
    AppState.getProcess (AppState.cleanupSession st k) k = none ∧
    AppState.getConnections (AppState.cleanupSession st k) k = [] ∧
    (AppState.acquireExecutionLock (AppState.cleanupSession st k) k).2 = true := by
  refine ⟨?_, ?_, ?_, ?_, ?_⟩
  · simp [AppState.isExecuting, AppState.cleanupSession]
  · simpa [AppState.getSession, AppState.cleanupSession]
      using mapGet_mapDelete_self st.sessions k
  · simpa [AppState.getProcess, AppState.cleanupSession]
      using mapGet_mapDelete_self st.processes k
  · simp [AppState.getConnections, AppState.cleanupSession, mapGet_mapDelete_self]
  · simp [AppState.acquireExecutionLock, AppState.cleanupSession]

/-! ### Idempotent spawn (C1) -/

/-- C1. Counterexample to the claim as stated: when a handle is already
registered for key k, a direct call to spawnProcess does not return the
existing handle; it constructs a fresh engine instance (allocation
counter advances from 1 to 2) and returns a handle different from the
registered one. -/
theorem C1_counterexample :
    AppState.getProcess c1State "k" = some c1Process ∧
    (ProcessManager.spawnProcess c1State c1Options true).map (fun r => r.2)
      = some { sessionPath := "k", engineInstance := 1, pendingExtensionUIs := []
               isReady := true } ∧
    ({ sessionPath := "k", engineInstance := 1, pendingExtensionUIs := []
       isReady := true } : PiProcess) ≠ c1Process ∧
    (ProcessManager.spawnProcess c1State c1Options true).map (fun r => r.1.nextEngine)
      = some 2 := by
  decide

/-- C1 (amended). The at-most-one-handle guarantee is enforced at the
call site, not inside spawnProcess: ensureProcessExists returns the
state unchanged (spawning nothing) when a handle already exists for the
key, and every path through ensureProcessExists preserves uniqueness of
the process-map keys, so at most one live handle exists per session
key. -/
theorem C1_at_most_one_handle (sessionsDir : String) (st : AppState) (k : String) (ok : Bool) :
    (∀ p, AppState.getProcess st k = some p →
      WebSocketService.ensureProcessExists sessionsDir st k ok = st) ∧
    (keysNodup st.processes →
      keysNodup (WebSocketService.ensureProcessExists sessionsDir st k ok).processes) := by
  constructor
  · intro p hp
    unfold WebSocketService.ensureProcessExists
    rw [hp]
  · intro hnd
    unfold WebSocketService.ensureProcessExists
    split
    · exact hnd
    split
    · exact hnd
    split
    · exact hnd
    split
    · rename_i r heq
      unfold ProcessManager.spawnProcess at heq
      cases ok with
      | false => simp at heq
      | true =>
        simp only [if_true] at heq
        injection heq with h
        subst h
        simp only [AppState.setProcess]
        exact keysNodup_mapSet st.processes k _ hnd
    · exact hnd

/-- Witness for C1: in the concrete state whose key k already holds a
handle, ensureProcessExists returns the state unchanged. -/
theorem C1_at_most_one_handle_witness :
    WebSocketService.ensureProcessExists "/s" c1State "k" true = c1State :=
  (C1_at_most_one_handle "/s" c1State "k" true).1 c1Process (by decide)

/-! ### Prompt execution lock (C2) -/

theorem count_releaseLock_broadcastError (st : AppState) (k msg k' : String) :
    (ProcessManager.broadcastError st k msg).count (Effect.releaseLock k') = 0 := by
  rw [List.count_eq_zero]
  intro hmem
  obtain ⟨c, _, hc⟩ := List.mem_filterMap.mp hmem
  by_cases hr : (c.readyState == 1) = true
  · simp [hr] at hc
  · simp [hr] at hc

/-- The prompt-lock behavior of the dispatch and settlement paths: a
prompt while the lock is held is rejected synchronously with no state
change and the busy error broadcast to every open connection; a prompt
with a string message dispatched while the lock is free is accepted and
holds the lock; and promise settlement of an accepted prompt releases
the lock exactly once, for success and failure alike. -/
theorem sendPrompt_spec (st : AppState) (piProcess : PiProcess) (message : Option String) :
    (AppState.isExecuting st piProcess.sessionPath = true →
      ProcessManager.sendPrompt st piProcess message
        = (st, false, ProcessManager.broadcastError st piProcess.sessionPath busyMessage) ∧
      ∀ c ∈ AppState.getConnections st piProcess.sessionPath, c.readyState = 1 →
        Effect.socketSend c.socketId (ServerMsg.errorEvent busyMessage)
          ∈ ProcessManager.broadcastError st piProcess.sessionPath busyMessage) ∧
    (AppState.isExecuting st piProcess.sessionPath = false → ∀ m, message = some m →
      (ProcessManager.sendPrompt st piProcess message).2.1 = true ∧
      AppState.isExecuting (ProcessManager.sendPrompt st piProcess message).1
          piProcess.sessionPath = true) ∧
    (∀ (st2 : AppState) (outcome : Except String Unit),
      AppState.isExecuting
          (ProcessManager.promptSettle st2 piProcess.sessionPath outcome).1 piProcess.sessionPath
        = false ∧
      ((ProcessManager.promptSettle st2 piProcess.sessionPath outcome).2).count
          (Effect.releaseLock piProcess.sessionPath) = 1) := by
  refine ⟨?_, ?_, ?_⟩
  · intro h
    unfold AppState.isExecuting at h
    have hm : piProcess.sessionPath ∈ st.executingSessions := by simpa using h
    constructor
    · simp [ProcessManager.sendPrompt, AppState.acquireExecutionLock, hm]
    · intro c hc hr
      unfold ProcessManager.broadcastError
      apply List.mem_filterMap.mpr
      refine ⟨c, hc, ?_⟩
      have hb : (c.readyState == 1) = true := by simpa using hr
      simp [hb]
  · intro h m hmsg
    subst hmsg
    unfold AppState.isExecuting at h
    have hm : piProcess.sessionPath ∉ st.executingSessions := by simpa using h
    constructor
    · simp [ProcessManager.sendPrompt, AppState.acquireExecutionLock, hm]
    · simp [ProcessManager.sendPrompt, AppState.acquireExecutionLock, hm,
        AppState.isExecuting]
  · intro st2 outcome
    cases outcome with
    | ok u =>
      constructor
      · simp [ProcessManager.promptSettle, AppState.releaseExecutionLock,
          AppState.isExecuting]
      · simp [ProcessManager.promptSettle]
    | error msg =>
      constructor
      · simp [ProcessManager.promptSettle, AppState.releaseExecutionLock,
          AppState.isExecuting]
      · simp only [ProcessManager.promptSettle, List.count_append]
        rw [count_releaseLock_broadcastError]
        simp

/-- C2. Evaluation of the code at the failing input: with the execution
lock free and a prompt whose message field is not a string, the dispatch
acquires the lock, the unchecked string cast makes the handler throw
into the outer catch of sendCommand which returns false, the engine is
never invoked, and no lock-release action is ever emitted — afterwards
the session is still marked executing, so the lock is leaked and the
claimed finally-style release guarantee fails; the busy-rejection half
of the claim is unaffected. -/
theorem C2_lock_leak_on_nonstring_message :
    AppState.isExecuting c2FreeState "k" = false ∧
    ProcessManager.sendPrompt c2FreeState c2Process none
      = ({ projects := [], sessions := [], processes := [("k", c2Process)]
           connections := [], executingSessions := ["k"], nextEngine := 1 }, false, []) ∧
    AppState.isExecuting (ProcessManager.sendPrompt c2FreeState c2Process none).1 "k"
      = true ∧
    (ProcessManager.sendPrompt c2FreeState c2Process none).2.2.count
        (Effect.releaseLock "k") = 0 ∧
    Effect.enginePrompt c2Process.engineInstance
      ∉ (ProcessManager.sendPrompt c2FreeState c2Process none).2.2 := by
  decide

/-! ### Connected acknowledgment ordering (C4) -/

theorem addConnection_fields (st : AppState) (k : String) (c : WebSocketConnection) :
    (AppState.addConnection st k c).projects = st.projects ∧
    (AppState.addConnection st k c).sessions = st.sessions ∧
    (AppState.addConnection st k c).processes = st.processes := by
  unfold AppState.addConnection
  split
  · exact ⟨rfl, rfl, rfl⟩
  · exact ⟨rfl, rfl, rfl⟩

theorem sendMessage_processes (st : AppState) (k : String) (msg : ServerMsg)
    (sendOk : ℕ → Bool) :
    (WebSocketService.sendMessage st k msg sendOk).1.processes = st.processes := by
  by_cases h : (AppState.getConnections st k).isEmpty = true <;>
    simp [WebSocketService.sendMessage, h]

theorem ensure_existing (sessionsDir : String) (st : AppState) (k : String) (ok : Bool)
    (p : PiProcess) (hp : AppState.getProcess st k = some p) :
    WebSocketService.ensureProcessExists sessionsDir st k ok = st := by
  unfold WebSocketService.ensureProcessExists
  rw [hp]

theorem ensure_processes_ready (sessionsDir : String) (st : AppState) (k : String) (ok : Bool)
    (h : allProcessesReady st) :
    allProcessesReady (WebSocketService.ensureProcessExists sessionsDir st k ok) := by
  unfold WebSocketService.ensureProcessExists
  split
  · exact h
  split
  · exact h
  split
  · exact h
  split
  · rename_i r heq
    unfold ProcessManager.spawnProcess at heq
    cases ok with
    | false => simp at heq
    | true =>
      simp only [if_true] at heq
      injection heq with h2
      subst h2
      intro q p hp
      simp only [AppState.setProcess, AppState.getProcess] at hp
      rw [mapGet_mapSet] at hp
      by_cases hq : q = k
      · rw [if_pos hq] at hp
        injection hp with h3
        rw [← h3]
      · rw [if_neg hq] at hp
        exact h q p hp
  · exact h

theorem ensure_spawns (sessionsDir : String) (st : AppState) (k : String)
    (s : Session) (proj : Project)
    (hs : AppState.getSession st k = some s)
    (hpr : AppState.getProject st s.projectId = some proj) :
    AppState.getProcess (WebSocketService.ensureProcessExists sessionsDir st k true) k
      ≠ none := by
  cases hp : AppState.getProcess st k with
  | some q =>
    rw [ensure_existing sessionsDir st k true q hp, hp]
    simp
  | none =>
    unfold WebSocketService.ensureProcessExists
    simp only [hp, hs, hpr]
    simp only [ProcessManager.spawnProcess, if_true]
    simp only [AppState.setProcess, AppState.getProcess]
    rw [mapGet_mapSet_self]
    simp

/-- C4. The claim as stated is false: when the session or project lookup
fails inside ensureProcessExists, or when engine construction throws,
the error is swallowed and the connected acknowledgment is still sent
although no backing process exists. Concretely, a connection to the
resolvable session s1 whose engine fails to construct receives connected
while no process handle is registered. -/
theorem C4_counterexample :
    Effect.socketSend 7 ServerMsg.connected
        ∈ (WebSocketService.handleConnection "/s" c4State "s1" 7 false (fun _ => true)).2 ∧
    AppState.getProcess
        (WebSocketService.handleConnection "/s" c4State "s1" 7 false (fun _ => true)).1 "s1"
      = none := by
  decide

/-- C4 (amended). The connected acknowledgment is sent only after
ensureProcessExists has settled: the trace begins with the registration
and ensure markers, every handle registered at that point is ready (so
when spawning succeeds or a handle already exists, connected is indeed
sent only after a ready process exists), and a pre-existing handle is
never replaced; but when ensure fails (missing session or project, or an
engine construction failure) the connected acknowledgment is still sent
with no backing process. -/
theorem C4_connected_after_ensure (sessionsDir : String) (st : AppState) (k : String)
    (sid : ℕ) (ok : Bool) (sendOk : ℕ → Bool) (hready : allProcessesReady st) :
    ((WebSocketService.handleConnection sessionsDir st k sid ok sendOk).2).take 2
        = [Effect.connectionRegistered sid, Effect.processEnsured k] ∧
    (∀ p, AppState.getProcess (WebSocketService.handleConnection sessionsDir st k sid ok sendOk).1 k
        = some p → p.isReady = true) ∧
    (∀ s proj, AppState.getSession st k = some s →
      AppState.getProject st s.projectId = some proj → ok = true →
      AppState.getProcess (WebSocketService.handleConnection sessionsDir st k sid ok sendOk).1 k
        ≠ none) ∧
    (∀ p0, AppState.getProcess st k = some p0 →
      AppState.getProcess (WebSocketService.handleConnection sessionsDir st k sid ok sendOk).1 k
        = some p0) := by
  have hfields := addConnection_fields st k
    { sessionPath := k, socketId := sid, readyState := 1, isAlive := true
      messageQueue := [], isPaused := false }
  refine ⟨rfl, ?_, ?_, ?_⟩
  · intro p hp
    unfold WebSocketService.handleConnection at hp
    simp only [AppState.getProcess] at hp
    rw [sendMessage_processes] at hp
    have h1 : allProcessesReady (AppState.addConnection st k
        { sessionPath := k, socketId := sid, readyState := 1, isAlive := true
          messageQueue := [], isPaused := false }) := by
      intro q p' hp'
      apply hready q p'
      simp only [AppState.getProcess] at hp' ⊢
      rw [hfields.2.2] at hp'
      exact hp'
    exact ensure_processes_ready sessionsDir _ k ok h1 k p hp
  · intro s proj hs hpr hok
    subst hok
    unfold WebSocketService.handleConnection
    simp only [AppState.getProcess]
    rw [sendMessage_processes]
    have hs1 : AppState.getSession (AppState.addConnection st k
        { sessionPath := k, socketId := sid, readyState := 1, isAlive := true
          messageQueue := [], isPaused := false }) k = some s := by
      simp only [AppState.getSession]
      rw [hfields.2.1]
      exact hs
    have hpr1 : AppState.getProject (AppState.addConnection st k
        { sessionPath := k, socketId := sid, readyState := 1, isAlive := true
          messageQueue := [], isPaused := false }) s.projectId = some proj := by
      simp only [AppState.getProject]
      rw [hfields.1]
      exact hpr
    exact ensure_spawns sessionsDir _ k s proj hs1 hpr1
  · intro p0 hp0
    unfold WebSocketService.handleConnection
    simp only [AppState.getProcess]
    rw [sendMessage_processes]
    have hp1 : AppState.getProcess (AppState.addConnection st k
        { sessionPath := k, socketId := sid, readyState := 1, isAlive := true
          messageQueue := [], isPaused := false }) k = some p0 := by
      simp only [AppState.getProcess]
      rw [hfields.2.2]
      exact hp0
    rw [ensure_existing sessionsDir _ k ok p0 hp1]
    exact hp1

/-- Witness for C4: in the concrete state with session and project
present and a succeeding spawn, the connection ends with a registered
backing process. -/
theorem C4_connected_witness :
    AppState.getProcess
        (WebSocketService.handleConnection "/s" c4State "s1" 7 true (fun _ => true)).1 "s1"
      ≠ none :=
  (C4_connected_after_ensure "/s" c4State "s1" 7 true (fun _ => true)
    (by intro q p hp; simp [AppState.getProcess, c4State, mapGet] at hp)).2.2.1
    c4Session c4Project (by decide) (by decide) rfl

/-! ### Last-disconnect cleanup of pending extension-UI requests (C8) -/

theorem mem_rejectAllPending (pending : List (String × PendingExtensionUI)) (reason : String)
    (p : String × PendingExtensionUI) (hp : p ∈ pending) :
    Effect.clearTimeout p.2.timerId ∈ rejectAllPending pending reason ∧
    Effect.rejectPending p.1 reason ∈ rejectAllPending pending reason := by
  induction pending with
  | nil => cases hp
  | cons q rest ih =>
    have hstep : rejectAllPending (q :: rest) reason
        = Effect.clearTimeout q.2.timerId :: Effect.rejectPending q.1 reason
            :: rejectAllPending rest reason := rfl
    rw [hstep]
    rcases List.mem_cons.mp hp with h1 | h1
    · subst h1
      exact ⟨List.mem_cons_self _ _, List.mem_cons_of_mem _ (List.mem_cons_self _ _)⟩
    · obtain ⟨ha, hb⟩ := ih h1
      exact ⟨List.mem_cons_of_mem _ (List.mem_cons_of_mem _ ha),
        List.mem_cons_of_mem _ (List.mem_cons_of_mem _ hb)⟩

/-- C8. When the last connection of a session disconnects, every pending
extension-UI request of the session's process is rejected with the
client-disconnected error and its timeout timer cancelled, the pending
map is emptied, and the process handle itself remains registered. -/
theorem C8_last_disconnect_rejects_pending (st : AppState) (k : String) (sid : ℕ)
    (c : WebSocketConnection) (piProcess : PiProcess)
    (hconn : mapGet st.connections k = some [c])
    (hsid : c.socketId = sid)
    (hproc : AppState.getProcess st k = some piProcess) :
    AppState.getProcess (WebSocketService.handleDisconnect st k sid).1 k
      = some { piProcess with pendingExtensionUIs := [] } ∧
    (WebSocketService.handleDisconnect st k sid).2
      = rejectAllPending piProcess.pendingExtensionUIs "Client disconnected" ∧
    (∀ p ∈ piProcess.pendingExtensionUIs,
      Effect.rejectPending p.1 "Client disconnected"
          ∈ (WebSocketService.handleDisconnect st k sid).2 ∧
      Effect.clearTimeout p.2.timerId ∈ (WebSocketService.handleDisconnect st k sid).2) := by
  have hb : (c.socketId == sid) = true := by simpa using hsid
  have hgetc : AppState.getConnections st k = [c] := by
    simp [AppState.getConnections, hconn]
  have hfind : (AppState.getConnections st k).find? (fun c' => c'.socketId == sid) = some c := by
    rw [hgetc]
    simp [List.find?, hb]
  have hremove : (AppState.removeConnection st k c).1
      = { st with connections := mapDelete st.connections k } := by
    unfold AppState.removeConnection
    rw [hconn]
    simp
  have hconn1 : AppState.getConnections { st with connections := mapDelete st.connections k } k
      = [] := by
    simp [AppState.getConnections, mapGet_mapDelete_self]
  have hproc1 : AppState.getProcess { st with connections := mapDelete st.connections k } k
      = some piProcess := hproc
  have hstep : WebSocketService.handleDisconnect st k sid
      = (AppState.setProcess { st with connections := mapDelete st.connections k } k
          { piProcess with pendingExtensionUIs := [] },
        rejectAllPending piProcess.pendingExtensionUIs "Client disconnected") := by
    simp only [WebSocketService.handleDisconnect, hfind, hremove, hconn1, hproc1]
    simp
  refine ⟨?_, ?_, ?_⟩
  · rw [hstep]
    simp only [AppState.setProcess, AppState.getProcess]
    exact mapGet_mapSet_self _ _ _
  · rw [hstep]
  · intro p hp
    rw [hstep]
    obtain ⟨ha, hb2⟩ := mem_rejectAllPending piProcess.pendingExtensionUIs
      "Client disconnected" p hp
    exact ⟨hb2, ha⟩

/-- Witness for C8: the spec scenario with one connection and two pending
extension-UI requests evaluated concretely. -/
theorem C8_last_disconnect_witness :
    AppState.getProcess (WebSocketService.handleDisconnect c8State "k" 3).1 "k"
      = some { c8Process with pendingExtensionUIs := [] } :=
  (C8_last_disconnect_rejects_pending c8State "k" 3 c8Conn c8Process
    (by decide) rfl (by decide)).1

/-! ### Backpressure queue (C5) -/

theorem enqueueOutbound_foldl (msgs : List ServerMsg) :
    msgs.foldl enqueueOutbound [] = msgs.drop (msgs.length - MAX_BUFFERED_MESSAGES) := by
  have hM : MAX_BUFFERED_MESSAGES = 100 := rfl
  induction msgs using List.reverseRecOn with
  | nil => rfl
  | append_singleton ms m ih =>
    rw [List.foldl_append, List.foldl_cons, List.foldl_nil, ih]
    by_cases hlen : ms.length < MAX_BUFFERED_MESSAGES
    · have h0 : ms.length - MAX_BUFFERED_MESSAGES = 0 := by omega
      have h1 : (ms ++ [m]).length - MAX_BUFFERED_MESSAGES = 0 := by
        rw [List.length_append, List.length_singleton]
        omega
      rw [h0, List.drop_zero, h1, List.drop_zero]
      unfold enqueueOutbound
      rw [if_pos hlen]
    · have hge : MAX_BUFFERED_MESSAGES ≤ ms.length := Nat.le_of_not_lt hlen
      have hlq : (ms.drop (ms.length - MAX_BUFFERED_MESSAGES)).length
          = MAX_BUFFERED_MESSAGES := by
        rw [List.length_drop]
        omega
      unfold enqueueOutbound
      rw [if_neg (by rw [hlq]; omega)]
      rw [List.tail_drop]
      have harith : (ms ++ [m]).length - MAX_BUFFERED_MESSAGES
          = (ms.length - MAX_BUFFERED_MESSAGES) + 1 := by
        rw [List.length_append, List.length_singleton]
        omega
      rw [harith, List.drop_append_eq_append_drop]
      have hz : (ms.length - MAX_BUFFERED_MESSAGES) + 1 - ms.length = 0 := by omega
      rw [hz, List.drop_zero]

theorem flushLoop_fifo (sid : ℕ) (q : List ServerMsg) (sendOk : ℕ → Bool) (i : ℕ) :
    sentMessages (flushLoop sid q sendOk i).2.2 ++ (flushLoop sid q sendOk i).1 = q ∧
    ((flushLoop sid q sendOk i).2.1 = false → (flushLoop sid q sendOk i).1 = []) := by
  induction q generalizing i with
  | nil => simp [flushLoop, sentMessages]
  | cons m rest ih =>
    by_cases h : sendOk i = true
    · have hih := ih (i + 1)
      constructor
      · simp only [flushLoop, h, if_true, sentMessages, List.filterMap_cons]
        simp only [sentMessages] at hih
        simp [hih.1]
      · intro hp
        simp only [flushLoop, h, if_true] at hp ⊢
        exact hih.2 hp
    · have h' : sendOk i = false := by simpa using h
      constructor
      · simp [flushLoop, h', sentMessages]
      · intro hp
        simp [flushLoop, h'] at hp

/-- C5. The paused-connection enqueue path of sendMessage implements the
bounded FIFO with oldest-drop: starting from an empty queue, enqueuing
any message sequence retains the most recent 100 messages in order
(after N + 1 = 101 messages, the last 100); a paused open connection
queues through exactly that policy and stays paused; and the drain-time
flush sends queued messages in FIFO order with the concatenation of sent
and retained messages equal to the original queue, emptying the queue
unless a renewed send failure re-pauses with the unsent message back at
the front. -/
theorem C5_backpressure_queue :
    (∀ (msgs : List ServerMsg),
      msgs.foldl enqueueOutbound [] = msgs.drop (msgs.length - MAX_BUFFERED_MESSAGES)) ∧
    (∀ (c : WebSocketConnection) (m : ServerMsg) (sendOk : ℕ → Bool),
      c.readyState = 1 → c.isPaused = true →
      (sendToConnection c m sendOk).1.messageQueue = enqueueOutbound c.messageQueue m ∧
      (sendToConnection c m sendOk).1.isPaused = true) ∧
    (∀ (c : WebSocketConnection) (sendOk : ℕ → Bool), c.readyState = 1 →
      sentMessages (WebSocketService.flushMessageQueue c sendOk).2
          ++ (WebSocketService.flushMessageQueue c sendOk).1.messageQueue
        = c.messageQueue ∧
      ((WebSocketService.flushMessageQueue c sendOk).1.isPaused = false →
        (WebSocketService.flushMessageQueue c sendOk).1.messageQueue = [])) := by
  refine ⟨enqueueOutbound_foldl, ?_, ?_⟩
  · intro c m sendOk h1 h2
    constructor <;> simp [sendToConnection, h1, h2]
  · intro c sendOk h1
    have hf := flushLoop_fifo c.socketId c.messageQueue sendOk 0
    constructor
    · simp only [WebSocketService.flushMessageQueue, h1]
      simpa using hf.1
    · intro hp
      simp only [WebSocketService.flushMessageQueue, h1] at hp ⊢
      simp only [ne_eq] at hp ⊢
      simp at hp ⊢
      exact hf.2 hp

/-- Witness for C5: the concrete paused open connection queues a new
message through the bounded FIFO policy. -/
theorem C5_backpressure_witness :
    (sendToConnection c5Conn ServerMsg.connected (fun _ => true)).1.messageQueue
      = enqueueOutbound c5Conn.messageQueue ServerMsg.connected :=
  ((C5_backpressure_queue.2.1 c5Conn ServerMsg.connected (fun _ => true)) rfl rfl).1

/-! ### Session resolution (C7) -/

theorem insertDescBy_perm {α : Type} (key : α → ℕ) (x : α) (l : List α) :
    (insertDescBy key x l).Perm (x :: l) := by
  induction l with
  | nil => exact List.Perm.refl _
  | cons y ys ih =>
    unfold insertDescBy
    by_cases h : key y < key x
    · rw [if_pos h]
    · rw [if_neg h]
      exact (ih.cons y).trans (List.Perm.swap x y ys)

theorem sortDescBy_perm {α : Type} (key : α → ℕ) (l : List α) :
    (sortDescBy key l).Perm l := by
  induction l with
  | nil => exact List.Perm.refl _
  | cons x xs ih =>
    have hstep : sortDescBy key (x :: xs) = insertDescBy key x (sortDescBy key xs) := rfl
    rw [hstep]
    exact (insertDescBy_perm key x (sortDescBy key xs)).trans (ih.cons x)

theorem mem_sortDescBy {α : Type} (key : α → ℕ) (l : List α) (a : α) :
    a ∈ sortDescBy key l ↔ a ∈ l :=
  (sortDescBy_perm key l).mem_iff

theorem foldl_setSession_fields (ss : List ScannedSession) (pid : String) (st : AppState) :
    (ss.foldl (fun s ps => AppState.setSession s (scannedToSession pid ps)) st).processes
        = st.processes ∧
    (ss.foldl (fun s ps => AppState.setSession s (scannedToSession pid ps)) st).connections
        = st.connections ∧
    (ss.foldl (fun s ps => AppState.setSession s (scannedToSession pid ps)) st).projects
        = st.projects := by
  induction ss generalizing st with
  | nil => exact ⟨rfl, rfl, rfl⟩
  | cons ps rest ih =>
    exact ih (AppState.setSession st (scannedToSession pid ps))

theorem loadProjectSessions_fields (scanned : String → List ScannedSession)
    (st : AppState) (pid : String) :
    (ProjectManager.loadProjectSessions scanned st pid).processes = st.processes ∧
    (ProjectManager.loadProjectSessions scanned st pid).connections = st.connections ∧
    (ProjectManager.loadProjectSessions scanned st pid).projects = st.projects := by
  unfold ProjectManager.loadProjectSessions
  split
  · exact ⟨rfl, rfl, rfl⟩
  split
  · exact ⟨rfl, rfl, rfl⟩
  · exact foldl_setSession_fields _ pid st

theorem getSession_setSession (st : AppState) (v : Session) (k : String) :
    AppState.getSession (AppState.setSession st v) k
      = if k = v.sessionPath then some v else AppState.getSession st k := by
  simp only [AppState.getSession, AppState.setSession]
  exact mapGet_mapSet st.sessions v.sessionPath k v

theorem getSession_foldl_load (ss : List ScannedSession) (pid : String) (st : AppState)
    (k : String) :
    AppState.getSession
        (ss.foldl (fun s ps => AppState.setSession s (scannedToSession pid ps)) st) k
        = AppState.getSession st k ∨
    ∃ s, AppState.getSession
        (ss.foldl (fun s ps => AppState.setSession s (scannedToSession pid ps)) st) k
        = some s ∧ s.projectId = pid ∧ s.sessionPath = k := by
  induction ss generalizing st with
  | nil => exact Or.inl rfl
  | cons ps rest ih =>
    rcases ih (AppState.setSession st (scannedToSession pid ps)) with h | ⟨s, hs1, hs2, hs3⟩
    · rw [getSession_setSession] at h
      by_cases hk : k = (scannedToSession pid ps).sessionPath
      · refine Or.inr ⟨scannedToSession pid ps, ?_, rfl, hk.symm⟩
        rw [if_pos hk] at h
        exact h
      · rw [if_neg hk] at h
        exact Or.inl h
    · exact Or.inr ⟨s, hs1, hs2, hs3⟩

theorem getSession_loadProjectSessions (scanned : String → List ScannedSession)
    (st : AppState) (pid k : String) :
    AppState.getSession (ProjectManager.loadProjectSessions scanned st pid) k
        = AppState.getSession st k ∨
    ∃ s, AppState.getSession (ProjectManager.loadProjectSessions scanned st pid) k
        = some s ∧ s.projectId = pid ∧ s.sessionPath = k := by
  unfold ProjectManager.loadProjectSessions
  split
  · exact Or.inl rfl
  split
  · exact Or.inl rfl
  · exact getSession_foldl_load _ pid st k

theorem find_in_sessionsByProject (st : AppState) (pid k : String) (s : Session)
    (hget : AppState.getSession st k = some s) (hpid : s.projectId = pid)
    (hkey : s.sessionPath = k) :
    ((AppState.getSessionsByProject st pid).find? (fun x => x.sessionPath == k)).isSome
      = true := by
  have hmem : s ∈ st.sessions.map Prod.snd := mapGet_mem_values st.sessions k s hget
  have hmemf : s ∈ (st.sessions.map Prod.snd).filter (fun x => x.projectId == pid) := by
    rw [List.mem_filter]
    exact ⟨hmem, by simp [hpid]⟩
  have hmems : s ∈ AppState.getSessionsByProject st pid := by
    unfold AppState.getSessionsByProject
    rw [mem_sortDescBy]
    exact hmemf
  rw [List.find?_isSome]
  exact ⟨s, hmems, by simp [hkey]⟩

theorem loadAndScanLoop_fields (scanned : String → List ScannedSession) (rp : String)
    (ps : List Project) (st : AppState) :
    (loadAndScanLoop scanned rp st ps).1.processes = st.processes ∧
    (loadAndScanLoop scanned rp st ps).1.connections = st.connections := by
  induction ps generalizing st with
  | nil => exact ⟨rfl, rfl⟩
  | cons p rest ih =>
    simp only [loadAndScanLoop]
    split
    · exact ⟨(loadProjectSessions_fields scanned st p.id).1,
        (loadProjectSessions_fields scanned st p.id).2.1⟩
    · have hrec := ih (ProjectManager.loadProjectSessions scanned st p.id)
      refine ⟨?_, ?_⟩
      · rw [hrec.1]
        exact (loadProjectSessions_fields scanned st p.id).1
      · rw [hrec.2]
        exact (loadProjectSessions_fields scanned st p.id).2.1

theorem loadAndScanLoop_none (scanned : String → List ScannedSession) (rp : String)
    (ps : List Project) (st : AppState)
    (h0 : AppState.getSession st rp = none)
    (hres : (loadAndScanLoop scanned rp st ps).2 = none) :
    AppState.getSession (loadAndScanLoop scanned rp st ps).1 rp = none := by
  induction ps generalizing st with
  | nil => exact h0
  | cons p rest ih =>
    simp only [loadAndScanLoop] at hres ⊢
    cases hf : (AppState.getSessionsByProject
        (ProjectManager.loadProjectSessions scanned st p.id) p.id).find?
        (fun s => s.sessionPath == rp) with
    | some s =>
      simp only [hf] at hres
      cases hres
    | none =>
      simp only [hf] at hres ⊢
      have h1 : AppState.getSession (ProjectManager.loadProjectSessions scanned st p.id) rp
          = none := by
        rcases getSession_loadProjectSessions scanned st p.id rp with he | ⟨s, hs1, hs2, hs3⟩
        · rw [he]
          exact h0
        · exfalso
          have hsome := find_in_sessionsByProject
            (ProjectManager.loadProjectSessions scanned st p.id) p.id rp s hs1 hs2 hs3
          rw [hf] at hsome
          cases hsome
      exact ih (ProjectManager.loadProjectSessions scanned st p.id) h1 hres

/-- C7. Session resolution follows the ordered chain with first match
winning: a direct registry hit resolves immediately with no state
change; when the direct lookup misses, a hit in the linear scan of all
known projects' session lists resolves with no state change; and when
every step including the per-project lazy load with its one-scan retry
misses, the route closes the socket with code 1008 and the reason
Session not found, no session is registered under the requested key, and
no process handle or connection is created. -/
theorem C7_resolution (scanned : String → List ScannedSession) (st : AppState) (k : String) :
    (∀ s, AppState.getSession st k = some s →
      findSession scanned st k = (st, some (k, s))) ∧
    (AppState.getSession st k = none → ∀ r, scanProjectsForSession st k = some r →
      findSession scanned st k = (st, some r)) ∧
    ((findSession scanned st k).2 = none →
      websocketSessionRoute scanned st k
          = ((findSession scanned st k).1, RouteOutcome.closed 1008 "Session not found") ∧
      AppState.getSession (findSession scanned st k).1 k = none ∧
      (findSession scanned st k).1.processes = st.processes ∧
      (findSession scanned st k).1.connections = st.connections) := by
  refine ⟨?_, ?_, ?_⟩
  · intro s hs
    unfold findSession
    rw [hs]
  · intro h0 r hr
    unfold findSession
    rw [h0, hr]
  · intro hres
    have hroute : websocketSessionRoute scanned st k
        = ((findSession scanned st k).1, RouteOutcome.closed 1008 "Session not found") := by
      unfold websocketSessionRoute
      have hpair : findSession scanned st k = ((findSession scanned st k).1, none) := by
        rw [← hres]
      rw [hpair]
    cases h0 : AppState.getSession st k with
    | some s =>
      simp only [findSession, h0] at hres
      cases hres
    | none =>
      cases hscan : scanProjectsForSession st k with
      | some r =>
        simp only [findSession, h0, hscan] at hres
        cases hres
      | none =>
        have hfe : findSession scanned st k
            = loadAndScanLoop scanned k st (AppState.getAllProjects st) := by
          simp only [findSession, h0, hscan]
        have hres2 : (loadAndScanLoop scanned k st (AppState.getAllProjects st)).2 = none := by
          rw [← hfe]
          exact hres
        refine ⟨hroute, ?_, ?_, ?_⟩
        · rw [hfe]
          exact loadAndScanLoop_none scanned k (AppState.getAllProjects st) st h0 hres2
        · rw [hfe]
          exact (loadAndScanLoop_fields scanned k (AppState.getAllProjects st) st).1
        · rw [hfe]
          exact (loadAndScanLoop_fields scanned k (AppState.getAllProjects st) st).2

/-- Witness for C7: in the empty registry no identifier resolves, the
route closes with 1008 and no placeholder session appears. -/
theorem C7_resolution_witness :
    websocketSessionRoute (fun _ => []) c7State "nope"
      = ((findSession (fun _ => []) c7State "nope").1,
          RouteOutcome.closed 1008 "Session not found") ∧
    AppState.getSession (findSession (fun _ => []) c7State "nope").1 "nope" = none :=
  ⟨((C7_resolution (fun _ => []) c7State "nope").2.2 (by decide)).1,
    ((C7_resolution (fun _ => []) c7State "nope").2.2 (by decide)).2.1⟩
